import Mathlib

/-!
Verification of the OLA I2C plugin output pipeline
(`plugins/i2c/I2CDevice.cpp`, `plugins/i2c/I2CBackend.h`).

The definitions below are a shallow embedding of the C++ source:
machine integers become `Nat` with explicit `% 2^w` where overflow or
wrap-around matters, byte buffers become `List ℕ`, and fallible
operations return `Option`.  Functions keep the source's names
(lower-camel-cased).
-/

namespace I2C

/-- Wrap-around (modular) subtraction of C `unsigned int` (32-bit)
quantities, as performed by expressions such as
`buffer.Size() - first_slot` in the source.  Both arguments are assumed
to be below `2^32`. -/
def usub32 (a b : ℕ) : ℕ := (2 ^ 32 + a - b) % 2 ^ 32

/-- `DmxBuffer::Get(slot)`: reads one slot, 0 when past the end of the
buffer.  `DmxBuffer` is OLA core code outside `src/`; modelled from the
spec (§4.3: slots past `avail` are "clamped to zeros"). -/
def dmxGet (buffer : List ℕ) (i : ℕ) : ℕ := buffer.getD i 0

/-- `DmxBuffer::GetRange(slot, data, length)`: copies
`min(length, Size() - slot)` bytes starting at `slot`, or nothing when
`slot` is past the end.  `DmxBuffer` is OLA core code outside `src/`;
modelled from the spec (§4.3: `avail = max(0, slots.length − first)`,
a range read yields at most `avail` bytes). -/
def dmxGetRange (buffer : List ℕ) (slot len : ℕ) : List ℕ :=
  if buffer.length ≤ slot then []
  else (buffer.drop slot).take (min len (buffer.length - slot))

/-- Write the bytes `bs` into `out` at consecutive positions starting
at `pos` (the shape of every per-pixel write loop body and `memcpy` in
the encoders). -/
def writeBytes (out : List ℕ) (pos : ℕ) : List ℕ → List ℕ
  | [] => out
  | b :: bs => writeBytes (out.set pos b) (pos + 1) bs

/-- The common shape of the encoder pixel loops: for `i = 0..n-1`,
write the group `group i` at position `base + stride * i` of the
checked-out region. -/
def encodeLoop (group : ℕ → List ℕ) (base stride n : ℕ)
    (out : List ℕ) : List ℕ :=
  (List.range n).foldl (fun acc i => writeBytes acc (base + stride * i) (group i)) out

/-- `I2COutput::CalculateAPA102LatchBytes` (I2CDevice.cpp:1157).
`latch_bits` is a `uint8_t` local, so the intermediate `(n+1)/2`
truncates to 8 bits. -/
def calculateAPA102LatchBytes (pixel_count : ℕ) : ℕ :=
  let latch_bits := ((pixel_count + 1) / 2) % 2 ^ 8
  (latch_bits + 7) / 8

/-- `I2COutput::P9813CreateFlag` (I2CDevice.cpp:871): bitwise-NOT (as
`uint8_t`) of the concatenated top-two bits of each channel. -/
def p9813CreateFlag (red green blue : ℕ) : ℕ :=
  let flag := (red.land 0xc0) >>> 6 |||
              ((green.land 0xc0) >>> 4) |||
              ((blue.land 0xc0) >>> 2)
  255 - flag

/-- `I2COutput::CalculateAPA102PixelBrightness` (I2CDevice.cpp:1170). -/
def calculateAPA102PixelBrightness (brightness : ℕ) : ℕ := brightness >>> 3

/-- Result of one encoder run: the requested payload size, the
requested latch-byte count, and the bytes of the checked-out region
after the encoder wrote into it.  `none` means the encoder aborted
before `Commit` (insufficient data). -/
abbrev EncodeResult := Option (ℕ × ℕ × List ℕ)

/-- Loop body of `IndividualLPD8806Control` (I2CDevice.cpp:752-760):
convert the pixel's RGB slots to GRB wire bytes. -/
def lpd8806Pixel (buffer : List ℕ) (first_slot i : ℕ) : List ℕ :=
  let offset := first_slot + i * 3
  let r := dmxGet buffer offset
  let g := dmxGet buffer (offset + 1)
  let b := dmxGet buffer (offset + 2)
  [0x80 ||| (g >>> 1), 0x80 ||| (r >>> 1), 0x80 ||| (b >>> 1)]

/-- Loop body of `IndividualP9813Control` (I2CDevice.cpp:815-833): the
pixel's slots are read only when `buffer.Size() - offset >= 3`
(unsigned), otherwise zeros are used. -/
def p9813Pixel (buffer : List ℕ) (first_slot i : ℕ) : List ℕ :=
  let offset := first_slot + i * 3
  let rgb : ℕ × ℕ × ℕ :=
    if 3 ≤ usub32 buffer.length offset then
      (dmxGet buffer offset, dmxGet buffer (offset + 1), dmxGet buffer (offset + 2))
    else (0, 0, 0)
  [p9813CreateFlag rgb.1 rgb.2.1 rgb.2.2, rgb.2.2, rgb.2.1, rgb.1]

/-- Loop body of `IndividualAPA102Control` (I2CDevice.cpp:921-947): the
slot offset is computed into a `uint16_t` (I2CDevice.cpp:923) and so
truncates modulo `2^16`; the lead byte `0xFF` is always written; the
colour bytes only when `buffer.Size() - offset >= 3` (unsigned). -/
def apa102Pixel (buffer : List ℕ) (first_slot i : ℕ) : List ℕ :=
  let offset := (first_slot + i * 3) % 2 ^ 16
  if 3 ≤ usub32 buffer.length offset then
    [0xFF, dmxGet buffer (offset + 2), dmxGet buffer (offset + 1),
     dmxGet buffer offset]
  else [0xFF]

/-- Loop body of `IndividualAPA102ControlPixelBrightness`
(I2CDevice.cpp:998-1022): the slot offset is computed into a
`uint16_t` (I2CDevice.cpp:1000) and so truncates modulo `2^16`; the
whole group is written only when `buffer.Size() - offset >= 4`
(unsigned). -/
def apa102PBPixel (buffer : List ℕ) (first_slot i : ℕ) : List ℕ :=
  let offset := (first_slot + i * 4) % 2 ^ 16
  if 4 ≤ usub32 buffer.length offset then
    [0xE0 ||| calculateAPA102PixelBrightness (dmxGet buffer offset),
     dmxGet buffer (offset + 3), dmxGet buffer (offset + 2),
     dmxGet buffer (offset + 1)]
  else []

/-- `I2COutput::IndividualWS2801Control` (I2CDevice.cpp:696): checkout
`3n`, copy `min(3n, avail)` slots from `first_slot`, commit. -/
def individualWS2801Control (pixel_count start_address : ℕ)
    (buffer prior : List ℕ) : EncodeResult :=
  let output_length := pixel_count * 3
  some (output_length, 0,
        writeBytes prior 0 (dmxGetRange buffer (start_address - 1) output_length))

/-- `I2COutput::CombinedWS2801Control` (I2CDevice.cpp:710): read 3
slots via `GetRange`; abort unless all 3 were available; replicate the
triple over all pixels. -/
def combinedWS2801Control (pixel_count start_address : ℕ)
    (buffer prior : List ℕ) : EncodeResult :=
  let pixel_data := dmxGetRange buffer (start_address - 1) 3
  if pixel_data.length ≠ 3 then none
  else
    some (pixel_count * 3, 0,
          encodeLoop (fun _ => pixel_data) 0 3 pixel_count prior)

/-- `I2COutput::IndividualLPD8806Control` (I2CDevice.cpp:733).  The
insufficient-data check and the loop bound use C unsigned subtraction
`buffer.Size() - first_slot`, which wraps when `first_slot` exceeds the
buffer length. -/
def individualLPD8806Control (pixel_count start_address : ℕ)
    (buffer prior : List ℕ) : EncodeResult :=
  let latch_bytes := (pixel_count + 31) / 32
  let first_slot := start_address - 1
  if usub32 buffer.length first_slot < 3 then none
  else
    let output_length := pixel_count * 3
    let length := min (pixel_count * 3) (usub32 buffer.length first_slot)
    let out := encodeLoop (lpd8806Pixel buffer first_slot) 0 3 (length / 3) prior
    some (output_length, latch_bytes, out)

/-- `I2COutput::CombinedLPD8806Control` (I2CDevice.cpp:765): read 3
slots via `GetRange`; abort unless all 3 were available; swap to GRB
and replicate `0x80 | (value >> 1)` over all pixels. -/
def combinedLPD8806Control (pixel_count start_address : ℕ)
    (buffer prior : List ℕ) : EncodeResult :=
  let latch_bytes := (pixel_count + 31) / 32
  let pd := dmxGetRange buffer (start_address - 1) 3
  if pd.length ≠ 3 then none
  else
    let pixel_data := [pd.getD 1 0, pd.getD 0 0, pd.getD 2 0]
    some (pixel_count * 3, latch_bytes,
          encodeLoop (fun _ => pixel_data.map (fun v => 0x80 ||| (v >>> 1)))
            0 3 pixel_count prior)

/-- `I2COutput::IndividualP9813Control` (I2CDevice.cpp:795): checkout
`4n` payload + 12 latch bytes; pixel `i` goes to offset `4(i+1)`; a
pixel reads its three slots only when `buffer.Size() - offset >= 3`
(unsigned), otherwise uses zeros. -/
def individualP9813Control (pixel_count start_address : ℕ)
    (buffer prior : List ℕ) : EncodeResult :=
  let latch_bytes := 3 * 4
  let first_slot := start_address - 1
  if usub32 buffer.length first_slot < 3 then none
  else
    let output_length := pixel_count * 4
    let out := encodeLoop (p9813Pixel buffer first_slot) 4 4 pixel_count prior
    some (output_length, latch_bytes, out)

/-- `I2COutput::CombinedP9813Control` (I2CDevice.cpp:837): abort when
`buffer.Size() - first_slot < 3` (unsigned); replicate the single
`(flag, b, g, r)` frame at offsets `4(i+1)`. -/
def combinedP9813Control (pixel_count start_address : ℕ)
    (buffer prior : List ℕ) : EncodeResult :=
  let latch_bytes := 3 * 4
  let first_slot := start_address - 1
  if usub32 buffer.length first_slot < 3 then none
  else
    let r := dmxGet buffer first_slot
    let g := dmxGet buffer (first_slot + 1)
    let b := dmxGet buffer (first_slot + 2)
    let pixel_data := [p9813CreateFlag r g b, b, g, r]
    some (pixel_count * 4, latch_bytes,
          encodeLoop (fun _ => pixel_data) 4 4 pixel_count prior)

/-- `I2COutput::IndividualAPA102Control` (I2CDevice.cpp:880): output 0
carries a leading 4-byte zero start-frame; every pixel group leads with
`0xFF`; the three colour bytes are written only when
`buffer.Size() - offset >= 3` (unsigned). -/
def individualAPA102Control (output_number pixel_count start_address : ℕ)
    (buffer prior : List ℕ) : EncodeResult :=
  let first_slot := start_address - 1
  if usub32 buffer.length first_slot < 3 then none
  else
    let start_bytes := if output_number = 0 then 4 else 0
    let output_length := pixel_count * 4 + start_bytes
    let out0 := if output_number = 0 then
        writeBytes prior 0 (List.replicate 4 0) else prior
    let out := encodeLoop (apa102Pixel buffer first_slot) start_bytes 4
      pixel_count out0
    some (output_length, calculateAPA102LatchBytes pixel_count, out)

/-- `I2COutput::CombinedAPA102Control` (I2CDevice.cpp:1028). -/
def combinedAPA102Control (output_number pixel_count start_address : ℕ)
    (buffer prior : List ℕ) : EncodeResult :=
  let first_slot := start_address - 1
  if usub32 buffer.length first_slot < 3 then none
  else
    let start_bytes := if output_number = 0 then 4 else 0
    let output_length := pixel_count * 4 + start_bytes
    let out0 := if output_number = 0 then
        writeBytes prior 0 (List.replicate 4 0) else prior
    let pixel_data := [0xFF, dmxGet buffer (first_slot + 2),
                       dmxGet buffer (first_slot + 1), dmxGet buffer first_slot]
    some (output_length, calculateAPA102LatchBytes pixel_count,
          encodeLoop (fun _ => pixel_data) start_bytes 4 pixel_count out0)

/-- `I2COutput::IndividualAPA102ControlPixelBrightness`
(I2CDevice.cpp:954): 4 slots per pixel `(brightness, r, g, b)`; a
pixel's whole group (including the lead byte) is written only when
`buffer.Size() - offset >= 4` (unsigned). -/
def individualAPA102ControlPixelBrightness
    (output_number pixel_count start_address : ℕ)
    (buffer prior : List ℕ) : EncodeResult :=
  let first_slot := start_address - 1
  if usub32 buffer.length first_slot < 4 then none
  else
    let start_bytes := if output_number = 0 then 4 else 0
    let output_length := pixel_count * 4 + start_bytes
    let out0 := if output_number = 0 then
        writeBytes prior 0 (List.replicate 4 0) else prior
    let out := encodeLoop (apa102PBPixel buffer first_slot) start_bytes 4
      pixel_count out0
    some (output_length, calculateAPA102LatchBytes pixel_count, out)

/-- `I2COutput::CombinedAPA102ControlPixelBrightness`
(I2CDevice.cpp:1086). -/
def combinedAPA102ControlPixelBrightness
    (output_number pixel_count start_address : ℕ)
    (buffer prior : List ℕ) : EncodeResult :=
  let first_slot := start_address - 1
  if usub32 buffer.length first_slot < 4 then none
  else
    let start_bytes := if output_number = 0 then 4 else 0
    let output_length := pixel_count * 4 + start_bytes
    let out0 := if output_number = 0 then
        writeBytes prior 0 (List.replicate 4 0) else prior
    let pixel_data :=
      [0xE0 ||| calculateAPA102PixelBrightness (dmxGet buffer (start_address - 1)),
       dmxGet buffer (start_address - 1 + 3), dmxGet buffer (start_address - 1 + 2),
       dmxGet buffer (start_address - 1 + 1)]
    some (output_length, calculateAPA102LatchBytes pixel_count,
          encodeLoop (fun _ => pixel_data) start_bytes 4 pixel_count out0)

/-- `DMX_UNIVERSE_SIZE` (ola/Constants.h). -/
def DMX_UNIVERSE_SIZE : ℕ := 512

/-- Slot footprint of personality `pers` (1..10) for a given pixel
count, as inserted into the personality list by the `I2COutput`
constructor (I2CDevice.cpp:511-561). -/
def personalityFootprint (pers pixel_count : ℕ) : ℕ :=
  match pers with
  | 1 => pixel_count * 3   -- WS2801 individual
  | 2 => 3                 -- WS2801 combined
  | 3 => pixel_count * 3   -- LPD8806 individual
  | 4 => 3                 -- LPD8806 combined
  | 5 => pixel_count * 3   -- P9813 individual
  | 6 => 3                 -- P9813 combined
  | 7 => pixel_count * 3   -- APA102 individual
  | 8 => 3                 -- APA102 combined
  | 9 => pixel_count * 4   -- APA102-PB individual
  | 10 => 4                -- APA102-PB combined
  | _ => 0

/-- `I2COutput::SetStartAddress` (I2CDevice.cpp:606):
`end_address = DMX_UNIVERSE_SIZE - footprint + 1` is computed into a
`uint16_t`, so it wraps modulo `2^16` when `footprint > 513`.  Returns
the new stored start address paired with the success flag; on failure
the stored address is unchanged. -/
def setStartAddress (footprint old_address address : ℕ) : Bool × ℕ :=
  let end_address := (2 ^ 16 + DMX_UNIVERSE_SIZE + 1 - footprint) % 2 ^ 16
  if address = 0 ∨ address > end_address ∨ footprint = 0 then (false, old_address)
  else (true, address)

/-- Modelled from the spec: `ResponderHelper::SetPersonality` and
`PersonalityManager::SetActivePersonality` (the code that decides a
personality change) are OLA core code outside `src/`.  Spec §4.4: a
personality whose footprint `f'` makes `start_address + f' − 1 > 512`
is accepted with `start_address` clamped to `512 − f' + 1` when
`f' > 0`; a personality with `f' = 0` is rejected.  Returns the new
start address on success. -/
def setPersonalityModel (start_address footprint' : ℤ) : Option ℤ :=
  if footprint' = 0 then none
  else if start_address + footprint' - 1 > 512 then some (512 - footprint' + 1)
  else some start_address

/-- State of one backend bus used by the commit path: the per-output
pending flags and the per-bus drop counter.  Modelled from the spec:
the backend implementation (`I2CBackend.cpp`) is not under `src/`
(only `I2CBackend.h` and its tests are). -/
structure BackendState where
  pending : List Bool
  drops : ℕ
deriving Repr, DecidableEq

/-- Modelled from the spec (§4.2, §4.2.1): `Commit(output)` on the
Hardware backend marks the output pending and, when the previous
commit had not yet been drained, counts one drop for the replaced
generation. -/
def hardwareCommit (st : BackendState) (output : ℕ) : BackendState :=
  { pending := st.pending.set output true,
    drops := st.drops + (if st.pending.getD output false then 1 else 0) }

/-- Modelled from the spec (§4.2.2): `Commit(output)` on the Software
backend (single shared pending flag, held in `pending.getD 0`): only a
commit on the sync output (or any commit when `sync_output = -1`)
marks pending / counts a drop of the replaced generation. -/
def softwareCommit (sync_output : ℤ) (st : BackendState) (output : ℕ) :
    BackendState :=
  if sync_output = -1 ∨ (output : ℤ) = sync_output then
    { pending := st.pending.set 0 true,
      drops := st.drops + (if st.pending.getD 0 false then 1 else 0) }
  else st

/-- `n` successive commits on the same output while the writer thread
is blocked (never draining). -/
def iterateCommit (commit : BackendState → ℕ → BackendState)
    (output : ℕ) (st : BackendState) : ℕ → BackendState
  | 0 => st
  | n + 1 => commit (iterateCommit commit output st n) output

/-- `I2COutput::InternalWriteDMX` (I2CDevice.cpp:657): dispatches on
the active personality to one of the encoders and returns `true`
unconditionally (an aborted or impossible encode is not reported). -/
def internalWriteDMX (pers output_number pixel_count start_address : ℕ)
    (buffer prior : List ℕ) : EncodeResult × Bool :=
  (match pers with
   | 1 => individualWS2801Control pixel_count start_address buffer prior
   | 2 => combinedWS2801Control pixel_count start_address buffer prior
   | 3 => individualLPD8806Control pixel_count start_address buffer prior
   | 4 => combinedLPD8806Control pixel_count start_address buffer prior
   | 5 => individualP9813Control pixel_count start_address buffer prior
   | 6 => combinedP9813Control pixel_count start_address buffer prior
   | 7 => individualAPA102Control output_number pixel_count start_address buffer prior
   | 8 => combinedAPA102Control output_number pixel_count start_address buffer prior
   | 9 => individualAPA102ControlPixelBrightness output_number pixel_count
            start_address buffer prior
   | 10 => combinedAPA102ControlPixelBrightness output_number pixel_count
            start_address buffer prior
   | _ => none,
   true)

/-- `I2COutput::WriteDMX` (I2CDevice.cpp:628): returns `true` at once
in identify mode, otherwise forwards to `InternalWriteDMX`. -/
def writeDMX (identify_mode : Bool)
    (pers output_number pixel_count start_address : ℕ)
    (buffer prior : List ℕ) : Bool :=
  if identify_mode then true
  else (internalWriteDMX pers output_number pixel_count start_address
          buffer prior).2

/-- `I2COutput::SetIdentify` (I2CDevice.cpp:1247).  The request's
boolean payload is extracted by `ResponderHelper::SetBoolValue` (OLA
core, outside `src/`; modelled from the spec as: store the requested
value); the frame below is encoded via `InternalWriteDMX` only when
the stored flag changed.  Returns the new flag and the slot buffer of
the encoded frame, if any. -/
def setIdentify (old_identify new_value : Bool) : Bool × Option (List ℕ) :=
  let m := new_value
  if m ≠ old_identify then
    (m, some (if m then List.replicate DMX_UNIVERSE_SIZE 255
              else List.replicate DMX_UNIVERSE_SIZE 0))
  else (m, none)

/-! ### Helper lemmas about the buffer-writing primitives -/

theorem getD_set_ne {α : Type} (l : List α) (i j : ℕ) (v d : α) (h : i ≠ j) :
    (l.set i v).getD j d = l.getD j d := by
  simp [List.getD_eq_getElem?_getD, List.getElem?_set_ne h]

theorem getD_set_self {α : Type} (l : List α) (i : ℕ) (v d : α) (h : i < l.length) :
    (l.set i v).getD i d = v := by
  simp [List.getD_eq_getElem?_getD, List.getElem?_set_self h]

theorem writeBytes_length (bs : List ℕ) : ∀ (out : List ℕ) (pos : ℕ),
    (writeBytes out pos bs).length = out.length := by
  induction bs with
  | nil => intro out pos; rfl
  | cons b bs ih =>
      intro out pos
      simp [writeBytes, ih, List.length_set]

theorem writeBytes_getD_lt (bs : List ℕ) : ∀ (out : List ℕ) (pos j : ℕ),
    j < pos → (writeBytes out pos bs).getD j 0 = out.getD j 0 := by
  induction bs with
  | nil => intro out pos j _; rfl
  | cons b bs ih =>
      intro out pos j hj
      rw [writeBytes, ih _ _ _ (by omega), getD_set_ne _ _ _ _ _ (by omega)]

theorem writeBytes_getD_at (bs : List ℕ) : ∀ (out : List ℕ) (pos r : ℕ),
    r < bs.length → pos + r < out.length →
    (writeBytes out pos bs).getD (pos + r) 0 = bs.getD r 0 := by
  induction bs with
  | nil => intro out pos r hr _; simp at hr
  | cons b bs ih =>
      intro out pos r hr hlen
      match r with
      | 0 =>
          rw [writeBytes, writeBytes_getD_lt _ _ _ _ (by omega)]
          simpa using getD_set_self out pos b 0 (by simpa using hlen)
      | r + 1 =>
          rw [writeBytes, show pos + (r + 1) = (pos + 1) + r by omega,
              ih _ _ _ (by simpa using hr) (by simp [List.length_set]; omega)]
          rfl

theorem encodeLoop_zero (group : ℕ → List ℕ) (base stride : ℕ) (out : List ℕ) :
    encodeLoop group base stride 0 out = out := rfl

theorem encodeLoop_succ (group : ℕ → List ℕ) (base stride n : ℕ) (out : List ℕ) :
    encodeLoop group base stride (n + 1) out =
      writeBytes (encodeLoop group base stride n out) (base + stride * n)
        (group n) := by
  simp [encodeLoop, List.range_succ]

theorem encodeLoop_length (group : ℕ → List ℕ) (base stride : ℕ) :
    ∀ (n : ℕ) (out : List ℕ),
      (encodeLoop group base stride n out).length = out.length := by
  intro n
  induction n with
  | zero => intro out; rfl
  | succ m ih =>
      intro out
      rw [encodeLoop_succ, writeBytes_length, ih]

theorem encodeLoop_getD_lt (group : ℕ → List ℕ) (base stride : ℕ) :
    ∀ (n : ℕ) (out : List ℕ) (j : ℕ), j < base →
      (encodeLoop group base stride n out).getD j 0 = out.getD j 0 := by
  intro n
  induction n with
  | zero => intro out j _; rfl
  | succ m ih =>
      intro out j hj
      rw [encodeLoop_succ, writeBytes_getD_lt _ _ _ _ (by omega), ih _ _ hj]

theorem encodeLoop_getD_at (group : ℕ → List ℕ) (base stride : ℕ)
    (hg : ∀ k, (group k).length ≤ stride) :
    ∀ (n : ℕ) (out : List ℕ) (i r : ℕ), i < n → r < (group i).length →
      base + stride * i + r < out.length →
      (encodeLoop group base stride n out).getD (base + stride * i + r) 0 =
        (group i).getD r 0 := by
  intro n
  induction n with
  | zero => intro out i r hi _ _; omega
  | succ m ih =>
      intro out i r hi hr hlen
      rw [encodeLoop_succ]
      rcases Nat.lt_or_ge i m with him | him
      · have hlt : base + stride * i + r < base + stride * m := by
          have h1 : r < stride := lt_of_lt_of_le hr (hg i)
          have h2 : stride * (i + 1) ≤ stride * m := by
            exact Nat.mul_le_mul_left _ (by omega)
          calc base + stride * i + r < base + stride * i + stride := by omega
            _ = base + stride * (i + 1) := by ring
            _ ≤ base + stride * m := by omega
        rw [writeBytes_getD_lt _ _ _ _ hlt, ih _ _ _ him hr hlen]
      · have him' : i = m := by omega
        subst him'
        exact writeBytes_getD_at _ _ _ _ hr (by rwa [encodeLoop_length])

theorem encodeLoop_congr (g1 g2 : ℕ → List ℕ) (base stride : ℕ) :
    ∀ (n : ℕ) (out : List ℕ), (∀ i, i < n → g1 i = g2 i) →
      encodeLoop g1 base stride n out = encodeLoop g2 base stride n out := by
  intro n
  induction n with
  | zero => intro out _; rfl
  | succ m ih =>
      intro out h
      rw [encodeLoop_succ, encodeLoop_succ, ih _ (fun i hi => h i (by omega)),
          h m (by omega)]

theorem usub32_of_le {a b : ℕ} (h : b ≤ a) (ha : a < 2 ^ 32) :
    usub32 a b = a - b := by
  unfold usub32
  rw [show 2 ^ 32 + a - b = 2 ^ 32 + (a - b) by omega, Nat.add_mod_left]
  exact Nat.mod_eq_of_lt (by omega)

theorem usub32_of_gt {a b : ℕ} (h : a < b) :
    usub32 a b = 2 ^ 32 + a - b := by
  unfold usub32
  exact Nat.mod_eq_of_lt (by omega)

theorem lpd8806Pixel_length (buffer : List ℕ) (first_slot i : ℕ) :
    (lpd8806Pixel buffer first_slot i).length = 3 := rfl

theorem p9813Pixel_length (buffer : List ℕ) (first_slot i : ℕ) :
    (p9813Pixel buffer first_slot i).length = 4 := rfl

theorem apa102Pixel_length_le (buffer : List ℕ) (first_slot i : ℕ) :
    (apa102Pixel buffer first_slot i).length ≤ 4 := by
  simp only [apa102Pixel]
  split_ifs <;> simp

theorem apa102PBPixel_length_le (buffer : List ℕ) (first_slot i : ℕ) :
    (apa102PBPixel buffer first_slot i).length ≤ 4 := by
  simp only [apa102PBPixel]
  split_ifs <;> simp

/-! ### Shared helper lemmas for the state-machine claims -/

theorem setStartAddress_accepts_iff (f old a : ℕ) :
    (setStartAddress f old a).1 = true ↔
      1 ≤ a ∧ a ≤ (2 ^ 16 + 513 - f) % 2 ^ 16 ∧ 1 ≤ f := by
  simp only [setStartAddress, DMX_UNIVERSE_SIZE]
  split_ifs with h <;> simp <;> omega

theorem setStartAddress_fail_unchanged (f old a : ℕ) :
    (setStartAddress f old a).1 = false → setStartAddress f old a = (false, old) := by
  simp only [setStartAddress, DMX_UNIVERSE_SIZE]
  split_ifs <;> simp

theorem iterateCommit_zero (commit : BackendState → ℕ → BackendState)
    (output : ℕ) (st : BackendState) : iterateCommit commit output st 0 = st := rfl

theorem iterateCommit_succ (commit : BackendState → ℕ → BackendState)
    (output : ℕ) (st : BackendState) (n : ℕ) :
    iterateCommit commit output st (n + 1) =
      commit (iterateCommit commit output st n) output := rfl

theorem hardwareCommit_pending (st : BackendState) (output : ℕ) :
    (hardwareCommit st output).pending = st.pending.set output true := rfl

theorem hardwareCommit_drops (st : BackendState) (output : ℕ) :
    (hardwareCommit st output).drops =
      st.drops + (if st.pending.getD output false then 1 else 0) := rfl

theorem softwareCommit_sync (sync : ℤ) (st : BackendState) (output : ℕ)
    (hsync : sync = -1 ∨ (output : ℤ) = sync) :
    softwareCommit sync st output =
      { pending := st.pending.set 0 true,
        drops := st.drops + (if st.pending.getD 0 false then 1 else 0) } := by
  unfold softwareCommit
  rw [if_pos hsync]

theorem iterate_hardwareCommit_spec (output : ℕ) (st : BackendState)
    (hp : st.pending.getD output false = false)
    (hlen : output < st.pending.length) : ∀ n : ℕ,
    (iterateCommit hardwareCommit output st (n + 1)).pending.getD output false = true ∧
    (iterateCommit hardwareCommit output st (n + 1)).drops = st.drops + n ∧
    (iterateCommit hardwareCommit output st (n + 1)).pending.length =
      st.pending.length := by
  intro n
  induction n with
  | zero =>
      rw [iterateCommit_succ, iterateCommit_zero, hardwareCommit_drops,
        hardwareCommit_pending]
      refine ⟨getD_set_self _ _ _ _ hlen, ?_, List.length_set _ _ _⟩
      rw [hp]
      simp
  | succ m ih =>
      obtain ⟨h1, h2, h3⟩ := ih
      rw [iterateCommit_succ, hardwareCommit_drops, hardwareCommit_pending]
      refine ⟨getD_set_self _ _ _ _ (by rw [h3]; exact hlen), ?_,
        by rw [List.length_set, h3]⟩
      rw [h1, h2]
      simp [Nat.add_assoc]

theorem iterate_softwareCommit_spec (sync : ℤ) (output : ℕ) (st : BackendState)
    (hp : st.pending.getD 0 false = false) (hlen : 0 < st.pending.length)
    (hsync : sync = -1 ∨ (output : ℤ) = sync) : ∀ n : ℕ,
    (iterateCommit (softwareCommit sync) output st (n + 1)).pending.getD 0 false = true ∧
    (iterateCommit (softwareCommit sync) output st (n + 1)).drops = st.drops + n ∧
    (iterateCommit (softwareCommit sync) output st (n + 1)).pending.length =
      st.pending.length := by
  intro n
  induction n with
  | zero =>
      rw [iterateCommit_succ, iterateCommit_zero, softwareCommit_sync _ _ _ hsync]
      refine ⟨getD_set_self _ _ _ _ hlen, ?_, List.length_set _ _ _⟩
      rw [hp]
      simp
  | succ m ih =>
      obtain ⟨h1, h2, h3⟩ := ih
      rw [iterateCommit_succ, softwareCommit_sync _ _ _ hsync]
      refine ⟨getD_set_self _ _ _ _ (by rw [h3]; exact hlen), ?_,
        by rw [List.length_set, h3]⟩
      rw [h1, h2]
      simp [Nat.add_assoc]

theorem apa102Pixel_getD_zero (buffer : List ℕ) (fs i : ℕ) :
    (apa102Pixel buffer fs i).getD 0 0 = 255 := by
  simp only [apa102Pixel]
  split_ifs <;> rfl

theorem apa102Pixel_length_pos (buffer : List ℕ) (fs i : ℕ) :
    0 < (apa102Pixel buffer fs i).length := by
  simp only [apa102Pixel]
  split_ifs <;> simp

theorem apa102_loop_lead (buffer out0 : List ℕ) (fs base n i : ℕ)
    (hi : i < n) (hplen : base + 4 * i < out0.length) :
    (encodeLoop (apa102Pixel buffer fs) base 4 n out0).getD (base + 4 * i) 0
      = 255 := by
  have h := encodeLoop_getD_at (apa102Pixel buffer fs) base 4
    (fun k => apa102Pixel_length_le buffer fs k) n out0 i 0 hi
    (apa102Pixel_length_pos buffer fs i) (by omega)
  rw [apa102Pixel_getD_zero] at h
  simpa using h

theorem apa102_loop_colors (buffer out0 : List ℕ) (fs base n i : ℕ)
    (hi : i < n) (hcond : 3 ≤ usub32 buffer.length ((fs + i * 3) % 2 ^ 16))
    (hplen : base + 4 * i + 3 < out0.length) :
    (encodeLoop (apa102Pixel buffer fs) base 4 n out0).getD (base + 4 * i + 1) 0
        = dmxGet buffer ((fs + i * 3) % 2 ^ 16 + 2) ∧
    (encodeLoop (apa102Pixel buffer fs) base 4 n out0).getD (base + 4 * i + 2) 0
        = dmxGet buffer ((fs + i * 3) % 2 ^ 16 + 1) ∧
    (encodeLoop (apa102Pixel buffer fs) base 4 n out0).getD (base + 4 * i + 3) 0
        = dmxGet buffer ((fs + i * 3) % 2 ^ 16) := by
  have hpix : apa102Pixel buffer fs i =
      [255, dmxGet buffer ((fs + i * 3) % 2 ^ 16 + 2),
       dmxGet buffer ((fs + i * 3) % 2 ^ 16 + 1),
       dmxGet buffer ((fs + i * 3) % 2 ^ 16)] := by
    simp only [apa102Pixel, if_pos hcond]
  refine ⟨?_, ?_, ?_⟩
  all_goals
    first
      | (have h := encodeLoop_getD_at (apa102Pixel buffer fs) base 4
          (fun k => apa102Pixel_length_le buffer fs k) n out0 i 1 hi
          (by rw [hpix]; simp) (by omega)
         rw [hpix] at h
         exact h)
      | (have h := encodeLoop_getD_at (apa102Pixel buffer fs) base 4
          (fun k => apa102Pixel_length_le buffer fs k) n out0 i 2 hi
          (by rw [hpix]; simp) (by omega)
         rw [hpix] at h
         exact h)
      | (have h := encodeLoop_getD_at (apa102Pixel buffer fs) base 4
          (fun k => apa102Pixel_length_le buffer fs k) n out0 i 3 hi
          (by rw [hpix]; simp) (by omega)
         rw [hpix] at h
         exact h)

theorem usub32_wrap_ge (len off k : ℕ) (h1 : len < off) (h2 : off ≤ 2 ^ 17)
    (h3 : k ≤ 2 ^ 31) : k ≤ usub32 len off := by
  rw [usub32_of_gt h1]
  omega

/-! ### Claim theorems -/

/-- C4: the claim states the APA102 latch-byte function equals
`ceil(ceil(n/2)/8)` for every pixel count (and the function's own doc
comment asserts it is valid up to 4080 pixels), but the `uint8_t`
intermediate `latch_bits` truncates: at `n = 511` the code returns 0
while `ceil(ceil(511/2)/8) = 32`.  The listed small values do hold. -/
theorem C4_apa102_latch_bytes_truncates :
    calculateAPA102LatchBytes 511 = 0 ∧
    ((511 + 1) / 2 + 7) / 8 = 32 ∧
    List.map calculateAPA102LatchBytes [1, 16, 17, 32, 33, 64, 65] =
      [1, 1, 2, 2, 3, 4, 5] := by
  decide

/-- C5: a personality change to footprint `f' > 0` whose footprint no
longer fits is accepted with the start address clamped to
`512 − f' + 1`; a footprint-0 personality is rejected (setter modelled
from the spec, §4.4). -/
theorem C5_personality_setter_clamps (start f' : ℤ) :
    (0 < f' → start + f' - 1 > 512 →
      setPersonalityModel start f' = some (512 - f' + 1)) ∧
    (f' = 0 → setPersonalityModel start f' = none) := by
  constructor
  · intro h1 h2
    unfold setPersonalityModel
    rw [if_neg (by omega), if_pos h2]
  · intro h
    unfold setPersonalityModel
    rw [if_pos h]

theorem C5_personality_setter_clamps_witness :
    setPersonalityModel 500 100 = some 413 ∧ setPersonalityModel 500 0 = none := by
  refine ⟨?_, (C5_personality_setter_clamps 500 0).2 rfl⟩
  have h := (C5_personality_setter_clamps 500 100).1 (by norm_num) (by norm_num)
  simpa using h

/-- C6 counterexample: with the individual-WS2801 personality at pixel
count 255 the footprint is 765, so the claimed valid range
`[1, 512 − f + 1]` is empty; yet the setter accepts address 1, because
`end_address` is computed into a `uint16_t` and wraps. -/
theorem C6_counterexample_footprint_765 :
    (setStartAddress (personalityFootprint 1 255) 1 1).1 = true ∧
    (512 : ℤ) - (personalityFootprint 1 255 : ℤ) + 1 < 1 := by
  constructor
  · decide
  · norm_num [personalityFootprint]

/-- C6 (amended): the start-address setter accepts exactly the
addresses in `[1, (513 − f) mod 2^16]` (for `1 ≤ f ≤ 513` this is the
claimed `[1, 512 − f + 1]`; for larger footprints the `uint16_t`
`end_address` wraps); a rejected set leaves the stored address
unchanged.  With personality 1 and pixel count 170 the footprint is
510, the valid addresses are `[1, 3]`, and setting 4 is rejected with
the state unchanged. -/
theorem C6_start_address_bounds (f old a : ℕ) :
    ((setStartAddress f old a).1 = true ↔
      1 ≤ a ∧ a ≤ (2 ^ 16 + 513 - f) % 2 ^ 16 ∧ 1 ≤ f) ∧
    (1 ≤ f → f ≤ 513 →
      ((setStartAddress f old a).1 = true ↔ 1 ≤ a ∧ a + f ≤ 513)) ∧
    ((setStartAddress f old a).1 = false → setStartAddress f old a = (false, old)) ∧
    personalityFootprint 1 170 = 510 ∧
    ((setStartAddress 510 old a).1 = true ↔ 1 ≤ a ∧ a ≤ 3) ∧
    setStartAddress 510 old 4 = (false, old) := by
  refine ⟨setStartAddress_accepts_iff f old a, ?_, setStartAddress_fail_unchanged f old a,
    rfl, ?_, ?_⟩
  · intro h1 h2
    rw [setStartAddress_accepts_iff]
    omega
  · rw [setStartAddress_accepts_iff]
    omega
  · refine setStartAddress_fail_unchanged 510 old 4 ?_
    have h : ¬ (setStartAddress 510 old 4).1 = true := by
      rw [setStartAddress_accepts_iff]
      omega
    simpa using h

theorem C6_start_address_bounds_witness :
    ((setStartAddress 510 1 3).1 = true ↔ 1 ≤ 3 ∧ 3 + 510 ≤ 513) ∧
    setStartAddress 510 1 4 = (false, 1) := by
  exact ⟨(C6_start_address_bounds 510 1 3).2.1 (by norm_num) (by norm_num),
    (C6_start_address_bounds 510 1 4).2.2.2.2.2⟩

/-- C7: on both backends (modelled from the spec; the backend
implementation is not under `src/`), while the writer thread never
drains, `n + 1` commits on a previously drained output leave exactly
one frame pending and increase the drop counter by exactly `n` — one
per replaced generation. -/
theorem C7_commit_drop_semantics (st : BackendState) (output n : ℕ) (sync : ℤ) :
    (st.pending.getD output false = false → output < st.pending.length →
      (iterateCommit hardwareCommit output st (n + 1)).pending.getD output false
          = true ∧
      (iterateCommit hardwareCommit output st (n + 1)).drops = st.drops + n) ∧
    (st.pending.getD 0 false = false → 0 < st.pending.length →
      (sync = -1 ∨ (output : ℤ) = sync) →
      (iterateCommit (softwareCommit sync) output st (n + 1)).pending.getD 0 false
          = true ∧
      (iterateCommit (softwareCommit sync) output st (n + 1)).drops = st.drops + n) := by
  constructor
  · intro hp hlen
    obtain ⟨h1, h2, _⟩ := iterate_hardwareCommit_spec output st hp hlen n
    exact ⟨h1, h2⟩
  · intro hp hlen hsync
    obtain ⟨h1, h2, _⟩ := iterate_softwareCommit_spec sync output st hp hlen hsync n
    exact ⟨h1, h2⟩

theorem C7_commit_drop_semantics_witness :
    (iterateCommit hardwareCommit 0 ⟨[false], 0⟩ 3).pending.getD 0 false = true ∧
    (iterateCommit hardwareCommit 0 ⟨[false], 0⟩ 3).drops = 2 ∧
    (iterateCommit (softwareCommit 0) 0 ⟨[false], 0⟩ 3).pending.getD 0 false = true ∧
    (iterateCommit (softwareCommit 0) 0 ⟨[false], 0⟩ 3).drops = 2 := by
  obtain ⟨h1, h2⟩ := (C7_commit_drop_semantics ⟨[false], 0⟩ 0 2 0).1 rfl (by decide)
  obtain ⟨h3, h4⟩ :=
    (C7_commit_drop_semantics ⟨[false], 0⟩ 0 2 0).2 rfl (by decide) (Or.inr rfl)
  exact ⟨h1, h2, h3, h4⟩

/-- C9: `WriteDMX` returns `true` for every slot buffer, personality
and output state — an identify-mode drop, an insufficient-data abort
inside the encoder, or any other failure of the encode path is never
reported to the caller (`InternalWriteDMX` returns the constant
`true`, I2CDevice.cpp:692). -/
theorem C9_writeDMX_always_true (identify : Bool)
    (pers output_number pixel_count start_address : ℕ)
    (buffer prior : List ℕ) :
    writeDMX identify pers output_number pixel_count start_address buffer prior
        = true ∧
    (internalWriteDMX pers output_number pixel_count start_address
        buffer prior).2 = true := by
  unfold writeDMX internalWriteDMX
  constructor
  · split <;> rfl
  · rfl

/-- C10: the identify setter encodes a frame — all-max on turning
identify on, blackout on turning it off — exactly when the stored flag
changes; a request carrying the current value produces no encode. -/
theorem C10_identify_encodes_only_on_change (old new : Bool) :
    (new = old → setIdentify old new = (old, none)) ∧
    (new ≠ old → setIdentify old new =
      (new, some (if new then List.replicate DMX_UNIVERSE_SIZE 255
                  else List.replicate DMX_UNIVERSE_SIZE 0))) := by
  constructor
  · intro h
    subst h
    simp [setIdentify]
  · intro h
    simp [setIdentify, h]

theorem C10_identify_encodes_only_on_change_witness :
    setIdentify false false = (false, none) ∧
    setIdentify false true = (true, some (List.replicate DMX_UNIVERSE_SIZE 255)) := by
  refine ⟨(C10_identify_encodes_only_on_change false false).1 rfl, ?_⟩
  have h := (C10_identify_encodes_only_on_change false true).2 (by simp)
  simpa using h

/-- C3: the LPD8806 individual encoder requests payload `3n` and latch
`ceil(n/32)`; with the start slot inside the buffer it aborts (no
commit) when fewer than 3 slots are available; otherwise pixel
`i < ⌊min(3n, avail)/3⌋` is written at payload offset `3i` as
`(0x80|g>>1, 0x80|r>>1, 0x80|b>>1)` from slots `first+3i..+3`. -/
theorem C3_lpd8806_individual (n s : ℕ) (buffer prior : List ℕ)
    (hlen : buffer.length ≤ 512) (hfirst : s - 1 ≤ buffer.length) :
    (buffer.length - (s - 1) < 3 →
      individualLPD8806Control n s buffer prior = none) ∧
    (∀ ps lb out,
      individualLPD8806Control n s buffer prior = some (ps, lb, out) →
      ps = 3 * n ∧ lb = (n + 31) / 32 ∧
      ∀ i, i < (min (3 * n) (buffer.length - (s - 1))) / 3 →
        3 * i + 2 < prior.length →
        out.getD (3 * i) 0 = 0x80 ||| (dmxGet buffer ((s - 1) + 3 * i + 1) >>> 1) ∧
        out.getD (3 * i + 1) 0 = 0x80 ||| (dmxGet buffer ((s - 1) + 3 * i) >>> 1) ∧
        out.getD (3 * i + 2) 0 =
          0x80 ||| (dmxGet buffer ((s - 1) + 3 * i + 2) >>> 1)) := by
  have hu : usub32 buffer.length (s - 1) = buffer.length - (s - 1) :=
    usub32_of_le hfirst (lt_of_le_of_lt hlen (by norm_num))
  constructor
  · intro h
    simp only [individualLPD8806Control]
    rw [hu, if_pos h]
  · intro ps lb out h
    simp only [individualLPD8806Control] at h
    rw [hu] at h
    rcases Nat.lt_or_ge (buffer.length - (s - 1)) 3 with hlt | hge
    · rw [if_pos hlt] at h
      exact absurd h (by simp)
    · rw [if_neg (by omega)] at h
      simp only [Option.some.injEq, Prod.mk.injEq] at h
      obtain ⟨hps, hlb, hout⟩ := h
      refine ⟨by omega, by omega, ?_⟩
      intro i hi hplen
      subst hout
      have hg : ∀ k, (lpd8806Pixel buffer (s - 1) k).length ≤ 3 :=
        fun k => le_of_eq (lpd8806Pixel_length buffer (s - 1) k)
      refine ⟨?_, ?_, ?_⟩
      · have h0 := encodeLoop_getD_at (lpd8806Pixel buffer (s - 1)) 0 3 hg _
          prior i 0 hi (by rw [lpd8806Pixel_length]; omega) (by omega)
        simpa [lpd8806Pixel, Nat.mul_comm, Nat.add_assoc] using h0
      · have h1 := encodeLoop_getD_at (lpd8806Pixel buffer (s - 1)) 0 3 hg _
          prior i 1 hi (by rw [lpd8806Pixel_length]; omega) (by omega)
        simpa [lpd8806Pixel, Nat.mul_comm, Nat.add_assoc] using h1
      · have h2 := encodeLoop_getD_at (lpd8806Pixel buffer (s - 1)) 0 3 hg _
          prior i 2 hi (by rw [lpd8806Pixel_length]; omega) (by omega)
        simpa [lpd8806Pixel, Nat.mul_comm, Nat.add_assoc] using h2

theorem C3_lpd8806_individual_witness :
    individualLPD8806Control 2 2 [1, 2] (List.replicate 6 9) = none ∧
    (∀ ps lb out,
      individualLPD8806Control 2 1 [10, 20, 30, 1, 2, 3] (List.replicate 7 9)
          = some (ps, lb, out) →
      ps = 3 * 2 ∧ lb = (2 + 31) / 32 ∧
      ∀ i, i < (min (3 * 2) ((6 : ℕ) - (1 - 1))) / 3 →
        3 * i + 2 < 7 →
        out.getD (3 * i) 0 =
          0x80 ||| (dmxGet [10, 20, 30, 1, 2, 3] ((1 - 1) + 3 * i + 1) >>> 1) ∧
        out.getD (3 * i + 1) 0 =
          0x80 ||| (dmxGet [10, 20, 30, 1, 2, 3] ((1 - 1) + 3 * i) >>> 1) ∧
        out.getD (3 * i + 2) 0 =
          0x80 ||| (dmxGet [10, 20, 30, 1, 2, 3] ((1 - 1) + 3 * i + 2) >>> 1)) := by
  constructor
  · exact (C3_lpd8806_individual 2 2 [1, 2] (List.replicate 6 9)
      (by decide) (by decide)).1 (by decide)
  · intro ps lb out h
    refine (C3_lpd8806_individual 2 1 [10, 20, 30, 1, 2, 3] (List.replicate 7 9)
      (by decide) (by decide)).2 ps lb out ?_
    simpa using h

set_option maxRecDepth 40000 in
/-- C2: the P9813 individual encoder requests payload `4n` and latch
12; with the start slot inside the buffer it aborts when fewer than 3
slots are available; otherwise pixel `i` is written at payload offset
`4(i+1)` as `(flag(r,g,b), b, g, r)` with the slots read from
`first+3i..+3` and zeros used past the available slots; the flag is
the bit-inverted concatenation `NOT((r>>6) | ((g>>6)<<2) | ((b>>6)<<4))`
and `flag(0xC0, 0x80, 0x40) = 0xE4`. -/
theorem C2_p9813_individual (n s : ℕ) (buffer prior : List ℕ)
    (hlen : buffer.length ≤ 512) (hfirst : s - 1 ≤ buffer.length) :
    (buffer.length - (s - 1) < 3 →
      individualP9813Control n s buffer prior = none) ∧
    (∀ ps lb out,
      individualP9813Control n s buffer prior = some (ps, lb, out) →
      ps = 4 * n ∧ lb = 12 ∧
      (∀ i, i < n → (s - 1) + 3 * i + 3 ≤ buffer.length →
        4 * (i + 1) + 3 < prior.length →
        out.getD (4 * (i + 1)) 0 =
          p9813CreateFlag (dmxGet buffer ((s - 1) + 3 * i))
            (dmxGet buffer ((s - 1) + 3 * i + 1))
            (dmxGet buffer ((s - 1) + 3 * i + 2)) ∧
        out.getD (4 * (i + 1) + 1) 0 = dmxGet buffer ((s - 1) + 3 * i + 2) ∧
        out.getD (4 * (i + 1) + 2) 0 = dmxGet buffer ((s - 1) + 3 * i + 1) ∧
        out.getD (4 * (i + 1) + 3) 0 = dmxGet buffer ((s - 1) + 3 * i)) ∧
      (∀ i, i < n → buffer.length < (s - 1) + 3 * i + 3 →
        4 * (i + 1) + 3 < prior.length →
        out.getD (4 * (i + 1)) 0 = 255 ∧
        out.getD (4 * (i + 1) + 1) 0 = 0 ∧
        out.getD (4 * (i + 1) + 2) 0 = 0 ∧
        out.getD (4 * (i + 1) + 3) 0 = 0)) ∧
    (∀ r g b, r < 256 → g < 256 → b < 256 →
      p9813CreateFlag r g b =
        255 - ((r >>> 6) ||| ((g >>> 6) <<< 2) ||| ((b >>> 6) <<< 4))) ∧
    p9813CreateFlag 0xC0 0x80 0x40 = 0xE4 := by
  have hu : usub32 buffer.length (s - 1) = buffer.length - (s - 1) :=
    usub32_of_le hfirst (lt_of_le_of_lt hlen (by norm_num))
  have hg4 : ∀ k, (p9813Pixel buffer (s - 1) k).length ≤ 4 :=
    fun k => le_of_eq (p9813Pixel_length buffer (s - 1) k)
  refine ⟨?_, ?_, ?_, by decide⟩
  · intro h
    simp only [individualP9813Control]
    rw [hu, if_pos h]
  · intro ps lb out h
    simp only [individualP9813Control] at h
    rw [hu] at h
    rcases Nat.lt_or_ge (buffer.length - (s - 1)) 3 with hlt | hge
    · rw [if_pos hlt] at h
      exact absurd h (by simp)
    · rw [if_neg (by omega)] at h
      simp only [Option.some.injEq, Prod.mk.injEq] at h
      obtain ⟨hps, hlb, hout⟩ := h
      subst hout
      refine ⟨by omega, by omega, ?_, ?_⟩
      · intro i hi havail hplen
        have hcond : 3 ≤ usub32 buffer.length ((s - 1) + i * 3) := by
          rw [usub32_of_le (by omega) (lt_of_le_of_lt hlen (by norm_num))]
          omega
        have hpix : p9813Pixel buffer (s - 1) i =
            [p9813CreateFlag (dmxGet buffer ((s - 1) + i * 3))
              (dmxGet buffer ((s - 1) + i * 3 + 1))
              (dmxGet buffer ((s - 1) + i * 3 + 2)),
             dmxGet buffer ((s - 1) + i * 3 + 2),
             dmxGet buffer ((s - 1) + i * 3 + 1),
             dmxGet buffer ((s - 1) + i * 3)] := by
          simp only [p9813Pixel, if_pos hcond]
        refine ⟨?_, ?_, ?_, ?_⟩
        · have hb := encodeLoop_getD_at (p9813Pixel buffer (s - 1)) 4 4 hg4 _
            prior i 0 hi (by rw [p9813Pixel_length]; omega) (by omega)
          rw [hpix] at hb
          have : 4 + 4 * i + 0 = 4 * (i + 1) := by ring
          rw [this] at hb
          simpa [Nat.mul_comm] using hb
        · have hb := encodeLoop_getD_at (p9813Pixel buffer (s - 1)) 4 4 hg4 _
            prior i 1 hi (by rw [p9813Pixel_length]; omega) (by omega)
          rw [hpix] at hb
          have : 4 + 4 * i + 1 = 4 * (i + 1) + 1 := by ring
          rw [this] at hb
          simpa [Nat.mul_comm] using hb
        · have hb := encodeLoop_getD_at (p9813Pixel buffer (s - 1)) 4 4 hg4 _
            prior i 2 hi (by rw [p9813Pixel_length]; omega) (by omega)
          rw [hpix] at hb
          have : 4 + 4 * i + 2 = 4 * (i + 1) + 2 := by ring
          rw [this] at hb
          simpa [Nat.mul_comm] using hb
        · have hb := encodeLoop_getD_at (p9813Pixel buffer (s - 1)) 4 4 hg4 _
            prior i 3 hi (by rw [p9813Pixel_length]; omega) (by omega)
          rw [hpix] at hb
          have : 4 + 4 * i + 3 = 4 * (i + 1) + 3 := by ring
          rw [this] at hb
          simpa [Nat.mul_comm] using hb
      · intro i hi havail hplen
        have hpix : p9813Pixel buffer (s - 1) i = [255, 0, 0, 0] := by
          by_cases hcond : 3 ≤ usub32 buffer.length ((s - 1) + i * 3)
          · have hoff : buffer.length < (s - 1) + i * 3 := by
              by_contra hc
              rw [usub32_of_le (by omega)
                (lt_of_le_of_lt hlen (by norm_num))] at hcond
              omega
            have hz : ∀ j, buffer.length ≤ j → dmxGet buffer j = 0 := by
              intro j hj
              exact List.getD_eq_default _ _ hj
            simp only [p9813Pixel, if_pos hcond]
            rw [hz _ (by omega), hz _ (by omega), hz _ (by omega)]
            rfl
          · simp only [p9813Pixel, if_neg hcond]
            rfl
        refine ⟨?_, ?_, ?_, ?_⟩
        · have hb := encodeLoop_getD_at (p9813Pixel buffer (s - 1)) 4 4 hg4 _
            prior i 0 hi (by rw [p9813Pixel_length]; omega) (by omega)
          rw [hpix] at hb
          have : 4 + 4 * i + 0 = 4 * (i + 1) := by ring
          rw [this] at hb
          exact hb
        · have hb := encodeLoop_getD_at (p9813Pixel buffer (s - 1)) 4 4 hg4 _
            prior i 1 hi (by rw [p9813Pixel_length]; omega) (by omega)
          rw [hpix] at hb
          have : 4 + 4 * i + 1 = 4 * (i + 1) + 1 := by ring
          rw [this] at hb
          exact hb
        · have hb := encodeLoop_getD_at (p9813Pixel buffer (s - 1)) 4 4 hg4 _
            prior i 2 hi (by rw [p9813Pixel_length]; omega) (by omega)
          rw [hpix] at hb
          have : 4 + 4 * i + 2 = 4 * (i + 1) + 2 := by ring
          rw [this] at hb
          exact hb
        · have hb := encodeLoop_getD_at (p9813Pixel buffer (s - 1)) 4 4 hg4 _
            prior i 3 hi (by rw [p9813Pixel_length]; omega) (by omega)
          rw [hpix] at hb
          have : 4 + 4 * i + 3 = 4 * (i + 1) + 3 := by ring
          rw [this] at hb
          exact hb
  · intro r g b hr hg2 hb2
    have h1 : ∀ x, x < 256 → (Nat.land x 0xc0) >>> 6 = x >>> 6 := by decide
    have h2 : ∀ x, x < 256 → (Nat.land x 0xc0) >>> 4 = (x >>> 6) <<< 2 := by decide
    have h3 : ∀ x, x < 256 → (Nat.land x 0xc0) >>> 2 = (x >>> 6) <<< 4 := by decide
    simp only [p9813CreateFlag]
    rw [h1 r hr, h2 g hg2, h3 b hb2]

theorem C2_p9813_individual_witness :
    individualP9813Control 1 1 [1, 2] (List.replicate 16 0) = none ∧
    (∀ ps lb out,
      individualP9813Control 1 1 [192, 128, 64] (List.replicate 16 0)
          = some (ps, lb, out) →
      ps = 4 * 1 ∧ lb = 12 ∧
      out.getD 4 0 = p9813CreateFlag 192 128 64 ∧
      out.getD 5 0 = 64 ∧ out.getD 6 0 = 128 ∧ out.getD 7 0 = 192) ∧
    p9813CreateFlag 0xC0 0x80 0x40 = 0xE4 := by
  refine ⟨?_, ?_, (C2_p9813_individual 1 1 [] [] (by decide) (by decide)).2.2.2⟩
  · exact (C2_p9813_individual 1 1 [1, 2] (List.replicate 16 0)
      (by decide) (by decide)).1 (by decide)
  · intro ps lb out h
    obtain ⟨hps, hlb, hfull, _⟩ :=
      (C2_p9813_individual 1 1 [192, 128, 64] (List.replicate 16 0)
        (by decide) (by decide)).2.1 ps lb out h
    obtain ⟨b0, b1, b2, b3⟩ := hfull 0 (by decide) (by decide) (by decide)
    exact ⟨hps, hlb, by simpa using b0, by simpa using b1,
      by simpa using b2, by simpa using b3⟩

/-- C1: the APA102 individual encoder on output 0 requests payload
`4n + 4` and zeroes the 4 start-frame bytes; on any other output it
requests `4n` with no start-frame; every pixel group leads with `0xFF`,
and a pixel whose three slots are fully available is encoded as
`(0xFF, b, g, r)`.  Concretely, for output 0, `n = 4` and slots
`(10, 20, 30)` at the pixel's offset, that pixel's bytes are
`0xFF 30 20 10`. -/
theorem C1_apa102_individual (outn n s : ℕ) (buffer prior : List ℕ)
    (hlen : buffer.length ≤ 512) :
    (∀ ps lb out,
      individualAPA102Control outn n s buffer prior = some (ps, lb, out) →
      (outn = 0 → ps = 4 * n + 4) ∧
      (outn ≠ 0 → ps = 4 * n) ∧
      (outn = 0 → ∀ j, j < 4 → j < prior.length → out.getD j 0 = 0) ∧
      (∀ i, i < n → (if outn = 0 then 4 else 0) + 4 * i < prior.length →
        out.getD ((if outn = 0 then 4 else 0) + 4 * i) 0 = 0xFF) ∧
      (∀ i, i < n → (s - 1) + 3 * i + 3 ≤ buffer.length →
        (if outn = 0 then 4 else 0) + 4 * i + 3 < prior.length →
        out.getD ((if outn = 0 then 4 else 0) + 4 * i + 1) 0 =
          dmxGet buffer ((s - 1) + 3 * i + 2) ∧
        out.getD ((if outn = 0 then 4 else 0) + 4 * i + 2) 0 =
          dmxGet buffer ((s - 1) + 3 * i + 1) ∧
        out.getD ((if outn = 0 then 4 else 0) + 4 * i + 3) 0 =
          dmxGet buffer ((s - 1) + 3 * i))) ∧
    individualAPA102Control 0 4 1 [10, 20, 30] (List.replicate 21 9) =
      some (20, 1, [0, 0, 0, 0, 255, 30, 20, 10, 255, 9, 9, 9,
                    255, 0, 0, 0, 255, 0, 0, 0, 9]) := by
  refine ⟨?_, by decide⟩
  intro ps lb out h
  simp only [individualAPA102Control] at h
  by_cases hc : usub32 buffer.length (s - 1) < 3
  · rw [if_pos hc] at h
    exact absurd h (by simp)
  · rw [if_neg hc] at h
    by_cases houtn : outn = 0
    · simp only [if_pos houtn, Option.some.injEq, Prod.mk.injEq] at h
      obtain ⟨hps, hlb, hout⟩ := h
      subst hout
      simp only [if_pos houtn]
      refine ⟨fun _ => by omega, fun hne => absurd houtn hne, ?_, ?_, ?_⟩
      · intro _ j hj hplen
        rw [encodeLoop_getD_lt _ _ _ _ _ _ hj]
        have hw := writeBytes_getD_at (List.replicate 4 0) prior 0 j
          (by simpa using hj) (by simpa using hplen)
        simp only [Nat.zero_add] at hw
        rw [hw]
        rcases j with _ | _ | _ | _ | j <;> rfl
      · intro i hi hplen
        exact apa102_loop_lead buffer _ (s - 1) 4 n i hi
          (by rw [writeBytes_length]; exact hplen)
      · intro i hi havail hplen
        have hmod : (s - 1 + i * 3) % 2 ^ 16 = s - 1 + i * 3 :=
          Nat.mod_eq_of_lt (by omega)
        have hcond : 3 ≤ usub32 buffer.length ((s - 1 + i * 3) % 2 ^ 16) := by
          rw [hmod, usub32_of_le (by omega) (lt_of_le_of_lt hlen (by norm_num))]
          omega
        have hcol := apa102_loop_colors buffer
          (writeBytes prior 0 (List.replicate 4 0)) (s - 1) 4 n i hi hcond
          (by rw [writeBytes_length]; exact hplen)
        rw [hmod] at hcol
        refine ⟨?_, ?_, ?_⟩
        · have h1 := hcol.1
          simpa [Nat.mul_comm] using h1
        · have h2 := hcol.2.1
          simpa [Nat.mul_comm] using h2
        · have h3 := hcol.2.2
          simpa [Nat.mul_comm] using h3
    · simp only [if_neg houtn, Option.some.injEq, Prod.mk.injEq] at h
      obtain ⟨hps, hlb, hout⟩ := h
      subst hout
      simp only [if_neg houtn]
      refine ⟨fun he => absurd he houtn, fun _ => by omega, ?_, ?_, ?_⟩
      · intro he
        exact absurd he houtn
      · intro i hi hplen
        have h0 := apa102_loop_lead buffer prior (s - 1) 0 n i hi
          (by simpa using hplen)
        simpa using h0
      · intro i hi havail hplen
        have hmod : (s - 1 + i * 3) % 2 ^ 16 = s - 1 + i * 3 :=
          Nat.mod_eq_of_lt (by omega)
        have hcond : 3 ≤ usub32 buffer.length ((s - 1 + i * 3) % 2 ^ 16) := by
          rw [hmod, usub32_of_le (by omega) (lt_of_le_of_lt hlen (by norm_num))]
          omega
        have hcol := apa102_loop_colors buffer prior (s - 1) 0 n i hi hcond
          (by simpa using hplen)
        rw [hmod] at hcol
        refine ⟨?_, ?_, ?_⟩
        · have h1 := hcol.1
          simpa [Nat.mul_comm] using h1
        · have h2 := hcol.2.1
          simpa [Nat.mul_comm] using h2
        · have h3 := hcol.2.2
          simpa [Nat.mul_comm] using h3

theorem C1_apa102_individual_witness :
    ∃ out : List ℕ,
      individualAPA102Control 0 4 1 [10, 20, 30] (List.replicate 21 9) =
        some (20, 1, out) ∧
      out.getD 0 0 = 0 ∧ out.getD 1 0 = 0 ∧ out.getD 2 0 = 0 ∧
      out.getD 3 0 = 0 ∧ out.getD 4 0 = 255 ∧ out.getD 5 0 = 30 ∧
      out.getD 6 0 = 20 ∧ out.getD 7 0 = 10 := by
  refine ⟨[0, 0, 0, 0, 255, 30, 20, 10, 255, 9, 9, 9, 255, 0, 0, 0,
           255, 0, 0, 0, 9], ?_, ?_, ?_, ?_, ?_, ?_, ?_, ?_, ?_⟩
  · exact (C1_apa102_individual 0 4 1 [10, 20, 30] (List.replicate 21 9)
      (by decide)).2
  all_goals
    have hmain := (C1_apa102_individual 0 4 1 [10, 20, 30]
      (List.replicate 21 9) (by decide)).1 20 1
      [0, 0, 0, 0, 255, 30, 20, 10, 255, 9, 9, 9, 255, 0, 0, 0,
       255, 0, 0, 0, 9] (by decide)
  · exact hmain.2.2.1 rfl 0 (by decide) (by decide)
  · exact hmain.2.2.1 rfl 1 (by decide) (by decide)
  · exact hmain.2.2.1 rfl 2 (by decide) (by decide)
  · exact hmain.2.2.1 rfl 3 (by decide) (by decide)
  · exact hmain.2.2.2.1 0 (by decide) (by decide)
  · exact (hmain.2.2.2.2 0 (by decide) (by decide) (by decide)).1
  · exact (hmain.2.2.2.2 0 (by decide) (by decide) (by decide)).2.1
  · exact (hmain.2.2.2.2 0 (by decide) (by decide) (by decide)).2.2

/-- C8 counterexample: the claim includes the LPD8806 *combined*
encoder among those whose insufficient-data check wraps around; but
that encoder reads its slots through `GetRange`, whose returned length
is 0 when `start_address − 1` is past the buffer end, so it takes the
abort branch instead of proceeding.  Here `start_address − 1 = 9`
exceeds the 3-byte buffer and the encoder aborts. -/
theorem C8_counterexample_lpd8806_combined :
    combinedLPD8806Control 2 10 [1, 2, 3] (List.replicate 7 9) = none ∧
    ([1, 2, 3] : List ℕ).length < 10 - 1 := by
  decide

/-- C8 (amended): every encoder that computes its insufficient-data
check as the C-unsigned difference `buffer.Size() - first_slot` —
LPD8806 individual; P9813, APA102 and APA102-PB, individual and
combined — does not take the abort branch when `start_address − 1`
exceeds the buffer length (the difference wraps), and proceeds to
encode.  The LPD8806 individual, P9813 individual and combined,
APA102 combined and APA102-PB combined encoders then encode exactly
as on an empty slot buffer, treating every slot past the buffer end
as zero.  The APA102 and APA102-PB individual encoders do the same as
long as every pixel's slot offset `first_slot + 3i` (resp. `4i`)
stays below `2^16`: the offset is stored in a `uint16_t`, so at larger
start addresses it wraps back into the buffer and the encoder reads
real slot data instead (the last two conjuncts exhibit such a wrapped
pixel group).  The LPD8806 *combined* encoder reads via a range copy
that returns a short length, and aborts. -/
theorem C8_unsigned_wraparound (outn n s : ℕ) (buffer prior : List ℕ)
    (hn : n ≤ 255) (hs : s ≤ 2 ^ 16) (hwrap : buffer.length < s - 1) :
    (individualLPD8806Control n s buffer prior =
        individualLPD8806Control n s [] prior ∧
      (individualLPD8806Control n s buffer prior).isSome = true) ∧
    (individualP9813Control n s buffer prior =
        individualP9813Control n s [] prior ∧
      (individualP9813Control n s buffer prior).isSome = true) ∧
    (combinedP9813Control n s buffer prior =
        combinedP9813Control n s [] prior ∧
      (combinedP9813Control n s buffer prior).isSome = true) ∧
    ((s - 1 + 3 * n < 2 ^ 16 →
        individualAPA102Control outn n s buffer prior =
          individualAPA102Control outn n s [] prior) ∧
      (individualAPA102Control outn n s buffer prior).isSome = true) ∧
    (combinedAPA102Control outn n s buffer prior =
        combinedAPA102Control outn n s [] prior ∧
      (combinedAPA102Control outn n s buffer prior).isSome = true) ∧
    ((s - 1 + 4 * n < 2 ^ 16 →
        individualAPA102ControlPixelBrightness outn n s buffer prior =
          individualAPA102ControlPixelBrightness outn n s [] prior) ∧
      (individualAPA102ControlPixelBrightness outn n s buffer prior).isSome
        = true) ∧
    (combinedAPA102ControlPixelBrightness outn n s buffer prior =
        combinedAPA102ControlPixelBrightness outn n s [] prior ∧
      (combinedAPA102ControlPixelBrightness outn n s buffer prior).isSome
        = true) ∧
    combinedLPD8806Control n s buffer prior = none ∧
    apa102Pixel [5, 6, 7, 8, 9] 65283 85 = [255, 9, 8, 7] ∧
    apa102PBPixel [5, 6, 7, 8, 9] 65028 127 = [224, 8, 7, 6] := by
  have hzb : ∀ j, s - 1 ≤ j → dmxGet buffer j = 0 := fun j hj =>
    List.getD_eq_default _ _ (by omega)
  have hzn : ∀ j : ℕ, dmxGet ([] : List ℕ) j = 0 := fun j =>
    List.getD_eq_default _ _ (Nat.zero_le j)
  have hcb3 : ¬ usub32 buffer.length (s - 1) < 3 := by
    have := usub32_wrap_ge buffer.length (s - 1) 3 hwrap (by omega) (by norm_num)
    omega
  have hcn3 : ¬ usub32 0 (s - 1) < 3 := by
    have := usub32_wrap_ge 0 (s - 1) 3 (by omega) (by omega) (by norm_num)
    omega
  have hcb4 : ¬ usub32 buffer.length (s - 1) < 4 := by
    have := usub32_wrap_ge buffer.length (s - 1) 4 hwrap (by omega) (by norm_num)
    omega
  have hcn4 : ¬ usub32 0 (s - 1) < 4 := by
    have := usub32_wrap_ge 0 (s - 1) 4 (by omega) (by omega) (by norm_num)
    omega
  have hpixL : ∀ k, k ≤ 255 → lpd8806Pixel buffer (s - 1) k =
      lpd8806Pixel [] (s - 1) k := by
    intro k hk
    simp only [lpd8806Pixel]
    rw [hzb (s - 1 + k * 3) (by omega), hzb (s - 1 + k * 3 + 1) (by omega),
        hzb (s - 1 + k * 3 + 2) (by omega), hzn (s - 1 + k * 3),
        hzn (s - 1 + k * 3 + 1), hzn (s - 1 + k * 3 + 2)]
  have hpixP : ∀ k, k ≤ 255 → p9813Pixel buffer (s - 1) k =
      p9813Pixel [] (s - 1) k := by
    intro k hk
    have hc1 : 3 ≤ usub32 buffer.length (s - 1 + k * 3) :=
      usub32_wrap_ge _ _ _ (by omega) (by omega) (by norm_num)
    have hc2 : 3 ≤ usub32 0 (s - 1 + k * 3) :=
      usub32_wrap_ge _ _ _ (by omega) (by omega) (by norm_num)
    simp only [p9813Pixel, List.length_nil]
    rw [if_pos hc1, if_pos hc2,
        hzb (s - 1 + k * 3) (by omega), hzb (s - 1 + k * 3 + 1) (by omega),
        hzb (s - 1 + k * 3 + 2) (by omega), hzn (s - 1 + k * 3),
        hzn (s - 1 + k * 3 + 1), hzn (s - 1 + k * 3 + 2)]
  refine ⟨⟨?_, ?_⟩, ⟨?_, ?_⟩, ⟨?_, ?_⟩, ⟨?_, ?_⟩, ⟨?_, ?_⟩, ⟨?_, ?_⟩,
    ⟨?_, ?_⟩, ?_, by decide, by decide⟩
  · have hmb : n * 3 ≤ usub32 buffer.length (s - 1) :=
      usub32_wrap_ge _ _ _ hwrap (by omega) (by omega)
    have hmn : n * 3 ≤ usub32 0 (s - 1) :=
      usub32_wrap_ge _ _ _ (by omega) (by omega) (by omega)
    simp only [individualLPD8806Control, List.length_nil]
    rw [if_neg hcb3, if_neg hcn3, Nat.min_eq_left hmb, Nat.min_eq_left hmn,
      encodeLoop_congr _ _ 0 3 (n * 3 / 3) prior
        (fun i hi => hpixL i (by omega))]
  · simp only [individualLPD8806Control]
    rw [if_neg hcb3]
    rfl
  · simp only [individualP9813Control, List.length_nil]
    rw [if_neg hcb3, if_neg hcn3,
      encodeLoop_congr _ _ 4 4 n prior (fun i hi => hpixP i (by omega))]
  · simp only [individualP9813Control]
    rw [if_neg hcb3]
    rfl
  · simp only [combinedP9813Control, List.length_nil]
    rw [if_neg hcb3, if_neg hcn3, hzb (s - 1) (by omega),
      hzb (s - 1 + 1) (by omega), hzb (s - 1 + 2) (by omega),
      hzn (s - 1), hzn (s - 1 + 1), hzn (s - 1 + 2)]
  · simp only [combinedP9813Control]
    rw [if_neg hcb3]
    rfl
  · intro hA
    have hpixA : ∀ k, k < n → apa102Pixel buffer (s - 1) k =
        apa102Pixel [] (s - 1) k := by
      intro k hk
      have hmod : (s - 1 + k * 3) % 2 ^ 16 = s - 1 + k * 3 :=
        Nat.mod_eq_of_lt (by omega)
      have hc1 : 3 ≤ usub32 buffer.length ((s - 1 + k * 3) % 2 ^ 16) := by
        rw [hmod]
        exact usub32_wrap_ge _ _ _ (by omega) (by omega) (by norm_num)
      have hc2 : 3 ≤ usub32 0 ((s - 1 + k * 3) % 2 ^ 16) := by
        rw [hmod]
        exact usub32_wrap_ge _ _ _ (by omega) (by omega) (by norm_num)
      simp only [apa102Pixel, List.length_nil]
      rw [if_pos hc1, if_pos hc2, hmod,
          hzb (s - 1 + k * 3) (by omega), hzb (s - 1 + k * 3 + 1) (by omega),
          hzb (s - 1 + k * 3 + 2) (by omega), hzn (s - 1 + k * 3),
          hzn (s - 1 + k * 3 + 1), hzn (s - 1 + k * 3 + 2)]
    simp only [individualAPA102Control, List.length_nil]
    rw [if_neg hcb3, if_neg hcn3,
      encodeLoop_congr _ _ (if outn = 0 then 4 else 0) 4 n _
        (fun i hi => hpixA i hi)]
  · simp only [individualAPA102Control]
    rw [if_neg hcb3]
    rfl
  · simp only [combinedAPA102Control, List.length_nil]
    rw [if_neg hcb3, if_neg hcn3, hzb (s - 1) (by omega),
      hzb (s - 1 + 1) (by omega), hzb (s - 1 + 2) (by omega),
      hzn (s - 1), hzn (s - 1 + 1), hzn (s - 1 + 2)]
  · simp only [combinedAPA102Control]
    rw [if_neg hcb3]
    rfl
  · intro hB
    have hpixB : ∀ k, k < n → apa102PBPixel buffer (s - 1) k =
        apa102PBPixel [] (s - 1) k := by
      intro k hk
      have hmod : (s - 1 + k * 4) % 2 ^ 16 = s - 1 + k * 4 :=
        Nat.mod_eq_of_lt (by omega)
      have hc1 : 4 ≤ usub32 buffer.length ((s - 1 + k * 4) % 2 ^ 16) := by
        rw [hmod]
        exact usub32_wrap_ge _ _ _ (by omega) (by omega) (by norm_num)
      have hc2 : 4 ≤ usub32 0 ((s - 1 + k * 4) % 2 ^ 16) := by
        rw [hmod]
        exact usub32_wrap_ge _ _ _ (by omega) (by omega) (by norm_num)
      simp only [apa102PBPixel, List.length_nil]
      rw [if_pos hc1, if_pos hc2, hmod,
          hzb (s - 1 + k * 4) (by omega), hzb (s - 1 + k * 4 + 1) (by omega),
          hzb (s - 1 + k * 4 + 2) (by omega), hzb (s - 1 + k * 4 + 3) (by omega),
          hzn (s - 1 + k * 4), hzn (s - 1 + k * 4 + 1),
          hzn (s - 1 + k * 4 + 2), hzn (s - 1 + k * 4 + 3)]
    simp only [individualAPA102ControlPixelBrightness, List.length_nil]
    rw [if_neg hcb4, if_neg hcn4,
      encodeLoop_congr _ _ (if outn = 0 then 4 else 0) 4 n _
        (fun i hi => hpixB i hi)]
  · simp only [individualAPA102ControlPixelBrightness]
    rw [if_neg hcb4]
    rfl
  · simp only [combinedAPA102ControlPixelBrightness, List.length_nil]
    rw [if_neg hcb4, if_neg hcn4, hzb (s - 1) (by omega),
      hzb (s - 1 + 1) (by omega), hzb (s - 1 + 2) (by omega),
      hzb (s - 1 + 3) (by omega), hzn (s - 1), hzn (s - 1 + 1),
      hzn (s - 1 + 2), hzn (s - 1 + 3)]
  · simp only [combinedAPA102ControlPixelBrightness]
    rw [if_neg hcb4]
    rfl
  · simp only [combinedLPD8806Control, dmxGetRange]
    rw [if_pos (show buffer.length ≤ s - 1 by omega)]
    simp

theorem C8_unsigned_wraparound_witness :
    (individualLPD8806Control 2 10 [1, 2, 3] (List.replicate 13 7) =
        individualLPD8806Control 2 10 [] (List.replicate 13 7) ∧
      (individualLPD8806Control 2 10 [1, 2, 3] (List.replicate 13 7)).isSome
        = true) ∧
    individualAPA102Control 1 2 10 [1, 2, 3] (List.replicate 13 7) =
      individualAPA102Control 1 2 10 [] (List.replicate 13 7) ∧
    combinedLPD8806Control 2 10 [1, 2, 3] (List.replicate 13 7) = none := by
  have h := C8_unsigned_wraparound 1 2 10 [1, 2, 3] (List.replicate 13 7)
    (by norm_num) (by norm_num) (by decide)
  exact ⟨h.1, h.2.2.2.1.1 (by norm_num), h.2.2.2.2.2.2.2.1⟩

end I2C
